import Mathlib

/-!
Verification of the `binance_wallet_integration` core against its
natural-language specification.  The definitions below are a shallow
embedding of the Python sources (`rate_limiter.py`, `client.py`,
`security.py`, `order_manager.py`, `config.py`, `websocket_manager.py`):
time is modelled as natural-number seconds (all constants in the source
are integral), Python floats carrying money/quantity values are modelled
as exact rationals, and fallible code is modelled with `Except`.
-/

namespace Binance

/-! ### Rate limiter (`rate_limiter.py`) -/

/-- Embeds the `RateLimit` dataclass: limit, window length, current usage
and the timestamp at which the window resets. -/
structure RateLimit where
  limit : ℕ
  windowSeconds : ℕ
  currentUsage : ℕ
  resetTime : ℕ
  deriving Repr, DecidableEq

/-- Embeds `RateLimit.is_exceeded`: if the current time has passed the
reset timestamp the usage is zeroed and a new window started, then the
usage is compared against the limit.  Returns the updated record and
the boolean result. -/
def RateLimit.is_exceeded (rl : RateLimit) (now : ℕ) : RateLimit × Bool :=
  let rl' := if rl.resetTime ≤ now then
    { rl with currentUsage := 0, resetTime := now + rl.windowSeconds } else rl
  (rl', decide (rl'.limit ≤ rl'.currentUsage))

/-- Embeds `RateLimit.add_usage`: same window-reset step as
`is_exceeded`, then the amount is added to the usage counter. -/
def RateLimit.add_usage (rl : RateLimit) (amount now : ℕ) : RateLimit :=
  let rl' := if rl.resetTime ≤ now then
    { rl with currentUsage := 0, resetTime := now + rl.windowSeconds } else rl
  { rl' with currentUsage := rl'.currentUsage + amount }

/-- Embeds the `RateLimitType` enum. -/
inductive RateLimitType where
  | REQUEST_WEIGHT
  | RAW_REQUESTS
  | ORDERS
  deriving Repr, DecidableEq

/-- Embeds the mutable state of `RateLimitManager`: one bucket per quota
type plus the ban flag and ban deadline.  The request-history deque and
the backoff bookkeeping are analytics only; the backoff attempt counter
is passed explicitly to `acquire` below. -/
structure RateLimitManager where
  requestWeight : RateLimit
  rawRequests : RateLimit
  orders : RateLimit
  isBanned : Bool
  banUntil : ℕ
  deriving Repr, DecidableEq

/-- The bucket belonging to a quota type (`self._rate_limits[limit_type]`). -/
def RateLimitManager.bucket (st : RateLimitManager) : RateLimitType → RateLimit
  | RateLimitType.REQUEST_WEIGHT => st.requestWeight
  | RateLimitType.RAW_REQUESTS => st.rawRequests
  | RateLimitType.ORDERS => st.orders

/-- Writing back the bucket of a quota type. -/
def RateLimitManager.setBucket (st : RateLimitManager) :
    RateLimitType → RateLimit → RateLimitManager
  | RateLimitType.REQUEST_WEIGHT, rl => { st with requestWeight := rl }
  | RateLimitType.RAW_REQUESTS, rl => { st with rawRequests := rl }
  | RateLimitType.ORDERS, rl => { st with orders := rl }

/-- Embeds `RateLimitManager.__init__`: 1200 request-weight per minute,
6000 raw requests per minute, 50 orders per 10 seconds, not banned. -/
def initRateLimitManager : RateLimitManager :=
  { requestWeight := ⟨1200, 60, 0, 0⟩
    rawRequests := ⟨6000, 60, 0, 0⟩
    orders := ⟨50, 10, 0, 0⟩
    isBanned := false
    banUntil := 0 }

/-- Embeds `RateLimitManager.check_limits`.  While banned and before the
ban deadline the check fails; a ban whose deadline has passed is
cleared.  Then the request is allowed iff adding its weight to the
bucket's current usage does not exceed the limit.  Note the source reads
`rate_limit.current_usage` directly: the bucket's window-reset timestamp
is not consulted here. -/
def check_limits (st : RateLimitManager) (now endpoint_weight : ℕ)
    (limit_type : RateLimitType) : RateLimitManager × Bool :=
  if st.isBanned ∧ now < st.banUntil then (st, false)
  else
    let st' := if st.isBanned ∧ st.banUntil ≤ now then { st with isBanned := false } else st
    let rl := st'.bucket limit_type
    if rl.limit < rl.currentUsage + endpoint_weight then (st', false)
    else (st', true)

/-- One iteration body of `RateLimitManager.acquire` at its grant point:
`check_limits` followed, on success, by `add_usage` on the bucket. -/
def acquire_once (st : RateLimitManager) (now endpoint_weight : ℕ)
    (limit_type : RateLimitType) : RateLimitManager × Bool :=
  match check_limits st now endpoint_weight limit_type with
  | (st', true) =>
      (st'.setBucket limit_type ((st'.bucket limit_type).add_usage endpoint_weight now), true)
  | (st', false) => (st', false)

/-- A sequence of `acquire` calls, each given as a pair
(endpoint weight, call time); returns the final manager state together
with the list of weights of the calls that were granted. -/
def acquire_seq (limit_type : RateLimitType) :
    RateLimitManager → List (ℕ × ℕ) → RateLimitManager × List ℕ
  | st, [] => (st, [])
  | st, (w, now) :: calls =>
      match acquire_once st now w limit_type with
      | (st', granted) =>
          let rest := acquire_seq limit_type st' calls
          (rest.1, if granted then w :: rest.2 else rest.2)

/-- Embeds the delay of one backoff step inside `acquire`:
`min(min(base * multiplier ** attempts, max_delay), 5.0)` with the
default `BackoffStrategy` (base 1, multiplier 2, ceiling 60), further
capped at 5 seconds by `acquire` itself. -/
def backoffDelay (attempts : ℕ) : ℕ :=
  min (min (2 ^ attempts) 60) 5

theorem backoffDelay_pos (attempts : ℕ) : 1 ≤ backoffDelay attempts := by
  have h : 1 ≤ 2 ^ attempts := Nat.one_le_two_pow
  simp only [backoffDelay]
  omega

/-- Embeds the `while` loop of `RateLimitManager.acquire`: while less
than `timeout` seconds have elapsed since `start`, run `check_limits`;
on success charge the bucket via `add_usage` and return granted,
otherwise sleep for the (capped) backoff delay and retry.  Returns the
final state, whether the permission was granted, and the time at which
the call returned. -/
def acquire (st : RateLimitManager) (endpoint_weight : ℕ)
    (limit_type : RateLimitType) (timeout start attempts now : ℕ) :
    RateLimitManager × Bool × ℕ :=
  if _h : now - start < timeout then
    match acquire_once st now endpoint_weight limit_type with
    | (st', true) => (st', true, now)
    | (st', false) =>
        acquire st' endpoint_weight limit_type timeout start (attempts + 1)
          (now + backoffDelay attempts)
  else (st, false, now)
  termination_by start + timeout - now
  decreasing_by
    have hd := backoffDelay_pos attempts
    omega

/-- Embeds `RateLimitManager.handle_rate_limit_error`.  The headers
dictionary is abstracted to its parsed `retry-after` entry (the only key
this method reads, and only in the 429 branch).  For HTTP 418 the ban
is set for a fixed 3600 seconds; the headers are not consulted. -/
def handle_rate_limit_error (st : RateLimitManager) (status_code : ℕ)
    (retry_after : Option ℕ) (now : ℕ) : RateLimitManager × ℕ :=
  if status_code = 429 then
    (st, retry_after.getD 60)
  else if status_code = 418 then
    ({ st with isBanned := true, banUntil := now + 3600 }, 3600)
  else (st, 0)

/-! ### REST client (`client.py`) -/

/-- Request parameters as far as `_get_endpoint_weight` inspects them:
whether a `symbol` entry is present and the optional `limit` entry.
`none` stands for an absent or empty params dict. -/
structure RequestParams where
  hasSymbol : Bool
  limit : Option ℕ
  deriving Repr, DecidableEq

/-- Embeds the `ENDPOINT_WEIGHTS` class table.  The Python dict literal
lists `/api/v3/order` twice (GET and POST comments); the later entry
wins in a dict literal, and both are 1. -/
def ENDPOINT_WEIGHTS : List (String × ℕ) :=
  [("/api/v3/exchangeInfo", 10), ("/api/v3/depth", 5), ("/api/v3/trades", 1),
   ("/api/v3/historicalTrades", 5), ("/api/v3/aggTrades", 1), ("/api/v3/klines", 1),
   ("/api/v3/avgPrice", 1), ("/api/v3/ticker/24hr", 1), ("/api/v3/ticker/price", 1),
   ("/api/v3/ticker/bookTicker", 1), ("/api/v3/account", 10), ("/api/v3/myTrades", 10),
   ("/api/v3/openOrders", 3), ("/api/v3/allOrders", 10),
   ("/api/v3/order/test", 1), ("/api/v3/order", 1)]

/-- Embeds `BinanceClient._get_endpoint_weight`: table lookup with a
default of 1, then the parameter-dependent overrides for depth, the
all-symbols ticker variants and the all-symbols open-orders listing. -/
def get_endpoint_weight (endpoint : String) (params : Option RequestParams) : ℕ :=
  let base_weight := ((ENDPOINT_WEIGHTS.lookup endpoint).getD 1)
  if endpoint = "/api/v3/depth" ∧ params.isSome then
    let lim := (params.bind RequestParams.limit).getD 100
    if lim ≤ 100 then 5
    else if lim ≤ 500 then 25
    else if lim ≤ 1000 then 50
    else 50
  else if endpoint = "/api/v3/ticker/24hr" ∧ ¬ (params.map RequestParams.hasSymbol).getD false then 40
  else if endpoint = "/api/v3/ticker/price" ∧ ¬ (params.map RequestParams.hasSymbol).getD false then 2
  else if endpoint = "/api/v3/ticker/bookTicker" ∧ ¬ (params.map RequestParams.hasSymbol).getD false then 2
  else if endpoint = "/api/v3/openOrders" ∧ ¬ (params.map RequestParams.hasSymbol).getD false then 40
  else base_weight

/-- Embeds the bucket selection inside `BinanceClient._request`:
`RateLimitType.ORDERS if 'order' in endpoint else RateLimitType.REQUEST_WEIGHT`.
Python's `in` on strings is a case-sensitive substring test. -/
def limitTypeFor (endpoint : String) : RateLimitType :=
  if List.IsInfix ("order".toList) endpoint.toList then RateLimitType.ORDERS
  else RateLimitType.REQUEST_WEIGHT

/-- Observable effects of the request pipeline that matter here: the
rate-limit acquisition and the HTTP network call itself. -/
inductive Effect where
  | rateLimitAcquire (weight : ℕ) (limit_type : RateLimitType)
  | httpCall (method endpoint : String)
  deriving Repr, DecidableEq

/-- Embeds the effect sequence of `BinanceClient._request` up to the
network call: it always acquires from the rate limiter first and, if
granted, issues the HTTP request (otherwise it raises
`BinanceAPIError` before any network traffic).  No step of `_request`
branches on the configured environment. -/
def request_effects (method endpoint : String) (params : Option RequestParams)
    (granted : Bool) : List Effect :=
  Effect.rateLimitAcquire (get_endpoint_weight endpoint params) (limitTypeFor endpoint)
    :: (if granted then [Effect.httpCall method endpoint] else [])

/-! ### Configuration (`config.py`) -/

/-- Embeds the `Environment` enum. -/
inductive Environment where
  | TESTNET
  | MAINNET
  | PAPER
  deriving Repr, DecidableEq

/-- The environment variables `get_api_credentials` reads. -/
structure EnvVars where
  apiKey : Option String
  apiSecret : Option String
  privateKeyPath : Option String
  deriving Repr, DecidableEq

/-- Credentials as returned by `get_api_credentials`. -/
structure Credentials where
  apiKey : String
  apiSecret : Option String
  privateKeyPath : Option String
  deriving Repr, DecidableEq

/-- Embeds the effect sequence of
`CryptoAgentsAdapter.get_account_balances`, which delegates to
`BinanceClient.get_account_info`, i.e. `_request` on the signed account
endpoint.  Neither method has an environment branch, so the parameter
is unused apart from recording which environment the client was built
for. -/
def get_account_balances_effects (env : Environment) (granted : Bool) : List Effect :=
  request_effects ("GET") ("/api/v3/account") none granted

/-- Embeds `ConfigManager.get_api_credentials`: in the paper
environment synthesized credentials are returned without reading any
environment variable; otherwise the key is required and exactly one of
the private-key path (preferred) or the secret must be present. -/
def get_api_credentials (env : Environment) (vars : EnvVars) : Except String Credentials :=
  if env = Environment.PAPER then
    Except.ok
      { apiKey := "paper_key_for_testing_purposes_long_enough"
        apiSecret := some ("paper_secret_for_testing_purposes_long_enough")
        privateKeyPath := none }
  else
    match vars.apiKey with
    | none => Except.error ("Missing BINANCE_API_KEY")
    | some key =>
        match vars.privateKeyPath with
        | some path => Except.ok { apiKey := key, apiSecret := none, privateKeyPath := some path }
        | none =>
            match vars.apiSecret with
            | some secret => Except.ok { apiKey := key, apiSecret := some secret, privateKeyPath := none }
            | none => Except.error ("Missing authentication credentials")

/-! ### Security manager (`security.py`) -/

/-- One lowercase hexadecimal digit, as produced by Python's
`bytes.hex`. -/
def hexDigitChar (n : ℕ) : Char :=
  if n < 10 then Char.ofNat (48 + n) else Char.ofNat (87 + n)

/-- Hex encoding of a byte string, two lowercase digits per byte
(`bytes.hex`). -/
def hexEncodeChars : List ℕ → List Char
  | [] => []
  | b :: bs => hexDigitChar (b / 16) :: hexDigitChar (b % 16) :: hexEncodeChars bs

/-- The standard base64 alphabet used by `base64.b64encode`. -/
def b64Char (n : ℕ) : Char :=
  if n < 26 then Char.ofNat (65 + n)
  else if n < 52 then Char.ofNat (97 + (n - 26))
  else if n < 62 then Char.ofNat (48 + (n - 52))
  else if n = 62 then Char.ofNat 43
  else Char.ofNat 47

/-- Base64 encoding of a byte string with padding, as
`base64.b64encode` produces it. -/
def b64EncodeChars : List ℕ → List Char
  | [] => []
  | [b] => [b64Char (b / 4), b64Char (b % 4 * 16), Char.ofNat 61, Char.ofNat 61]
  | [b, c] => [b64Char (b / 4), b64Char (b % 4 * 16 + c / 16), b64Char (c % 16 * 4), Char.ofNat 61]
  | b :: c :: d :: rest =>
      b64Char (b / 4) :: b64Char (b % 4 * 16 + c / 16) :: b64Char (c % 16 * 4 + d / 64)
        :: b64Char (d % 64) :: b64EncodeChars rest

/-- Value of one base64 alphabet character, for decoding. -/
def b64CharVal (ch : Char) : Option ℕ :=
  let n := ch.toNat
  if 65 ≤ n ∧ n ≤ 90 then some (n - 65)
  else if 97 ≤ n ∧ n ≤ 122 then some (n - 97 + 26)
  else if 48 ≤ n ∧ n ≤ 57 then some (n - 48 + 52)
  else if n = 43 then some 62
  else if n = 47 then some 63
  else none

/-- Base64 decoding with padding, inverse of `b64EncodeChars`. -/
def b64DecodeChars : List Char → Option (List ℕ)
  | [] => some []
  | [a, b, p1, p2] =>
      if p1 = Char.ofNat 61 ∧ p2 = Char.ofNat 61 then
        match b64CharVal a, b64CharVal b with
        | some va, some vb => some [va * 4 + vb / 16]
        | _, _ => none
      else if p2 = Char.ofNat 61 then
        match b64CharVal a, b64CharVal b, b64CharVal p1 with
        | some va, some vb, some vc => some [va * 4 + vb / 16, vb % 16 * 16 + vc / 4]
        | _, _, _ => none
      else
        match b64CharVal a, b64CharVal b, b64CharVal p1, b64CharVal p2 with
        | some va, some vb, some vc, some vd =>
            some [va * 4 + vb / 16, vb % 16 * 16 + vc / 4, vc % 4 * 64 + vd]
        | _, _, _, _ => none
  | a :: b :: c :: d :: rest =>
      match b64CharVal a, b64CharVal b, b64CharVal c, b64CharVal d, b64DecodeChars rest with
      | some va, some vb, some vc, some vd, some bytes =>
          some ((va * 4 + vb / 16) :: (vb % 16 * 16 + vc / 4) :: (vc % 4 * 64 + vd) :: bytes)
      | _, _, _, _, _ => none
  | _ => none

/-- Modelled from the spec: the Python standard-library HMAC
(`hmac.new(secret, query, sha256).digest()`) is not part of this
repository; per the spec it is a SHA-256-based MAC with a fixed 32-byte
digest.  The digest bytes are therefore taken as the argument, and
`generate_signature` in shared-secret mode is its hex encoding
(`signature_bytes.hex()`). -/
def generate_signature_hmac (digest : List ℕ) : String :=
  String.mk (hexEncodeChars digest)

/-- Modelled from the spec: the `cryptography` Ed25519 primitive
(`private_key.sign(payload)`) is not part of this repository; per the
spec it yields a fixed 64-byte signature.  The signature bytes are
taken as the argument, and `generate_signature` in asymmetric mode is
their base64 encoding (`base64.b64encode(...)`). -/
def generate_signature_ed25519 (signature_bytes : List ℕ) : String :=
  String.mk (b64EncodeChars signature_bytes)

/-- Lowercase-hexadecimal character test. -/
def isLowerHexDigit (c : Char) : Bool :=
  (48 ≤ c.toNat && c.toNat ≤ 57) || (97 ≤ c.toNat && c.toNat ≤ 102)

/-! ### WebSocket manager (`websocket_manager.py`) -/

/-- Embeds the `while` loop of `WebSocketManager._reconnect_loop` with
`self._running` held true.  `outcome k` tells whether the reconnection
attempt made with `reconnect_attempts = k` succeeds (the body's
`_create_connection` call).  Returns how many attempts this run made,
the final `reconnect_attempts` counter, and whether the connection was
re-established.  On success the counter is reset to 0 and the loop
breaks; on failure the counter is incremented and the loop retries
while the counter is below `max_attempts`. -/
def reconnect_loop (outcome : ℕ → Bool) (max_attempts : ℕ) (made attempts : ℕ) :
    ℕ × ℕ × Bool :=
  if attempts < max_attempts then
    if outcome attempts then (made + 1, 0, true)
    else reconnect_loop outcome max_attempts (made + 1) (attempts + 1)
  else (made, attempts, false)
  termination_by max_attempts - attempts

/-- The `max_reconnect_attempts` default of `WebSocketConnection`. -/
def max_reconnect_attempts : ℕ := 5

/-! ### Order manager (`order_manager.py`)

Money and quantity values are modelled as exact rationals.  Python
floats written as decimal literals round-trip through `str` to the same
decimal digits, so on the inputs appearing in the spec and the claims
the embedding is exact. -/

/-- Embeds the `OrderSide` enum. -/
inductive OrderSide where
  | BUY
  | SELL
  deriving Repr, DecidableEq

/-- Embeds the `OrderType` enum. -/
inductive OrderType where
  | MARKET
  | LIMIT
  | STOP_LOSS
  | STOP_LOSS_LIMIT
  | TAKE_PROFIT
  | TAKE_PROFIT_LIMIT
  deriving Repr, DecidableEq

/-- Embeds the `OrderStatus` enum. -/
inductive OrderStatus where
  | PENDING
  | NEW
  | PARTIALLY_FILLED
  | FILLED
  | CANCELED
  | PENDING_CANCEL
  | REJECTED
  | EXPIRED
  deriving Repr, DecidableEq

/-- Embeds the `OrderRequest` dataclass (risk-management fields that no
code path reads are omitted). -/
structure OrderRequest where
  symbol : String
  side : OrderSide
  order_type : OrderType
  quantity : ℚ
  price : Option ℚ
  time_in_force : String
  client_order_id : Option String
  deriving Repr, DecidableEq

/-- Embeds the `OrderResult` dataclass (the `commission` fields and
`raw_response`, which no claim touches, are omitted). -/
structure OrderResult where
  success : Bool
  order_id : Option String := none
  client_order_id : Option String := none
  status : Option OrderStatus := none
  filled_quantity : ℚ := 0
  filled_price : ℚ := 0
  error_message : Option String := none
  deriving Repr, DecidableEq

/-- The LOT_SIZE filter of a symbol.  The step size is carried as the
`Decimal` obtained in `_format_quantity` via
`Decimal(str(float(lot_size[stepSize])))`: a mantissa and a decimal
exponent, its value being `stepMant / 10 ^ stepExp`.  For example the
exchange string `0.00001000` becomes `Decimal(1e-05)`, i.e. mantissa 1,
exponent 5, and `1.00000000` becomes `Decimal(1.0)`, i.e. mantissa 10,
exponent 1. -/
structure LotSizeFilter where
  minQty : ℚ
  maxQty : ℚ
  stepMant : ℕ
  stepExp : ℕ
  deriving Repr, DecidableEq

/-- The PRICE_FILTER of a symbol, carried like the step size. -/
structure PriceFilter where
  tickMant : ℕ
  tickExp : ℕ
  deriving Repr, DecidableEq

/-- Cached per-symbol exchange metadata (`self._symbol_info[symbol]`),
reduced to the filters the order path reads.  `none` models a missing
filter entry. -/
structure SymbolInfo where
  lot_size : Option LotSizeFilter
  price_filter : Option PriceFilter
  min_notional : Option ℚ
  deriving Repr, DecidableEq

/-- Embeds the `RiskLimits` dataclass. -/
structure RiskLimits where
  max_position_size_usd : ℚ
  max_order_size_usd : ℚ
  max_daily_volume_usd : ℚ
  max_slippage_tolerance : ℚ
  min_order_size_usd : ℚ
  daily_volume_usd : ℚ
  daily_reset_time : ℕ
  deriving Repr, DecidableEq

/-- The risk limits `OrderManager.__init__` builds from the default
`TradingConfig` (max position 10000, max order half of that, daily cap
left at the dataclass default 50000, min order 10, slippage tolerance
doubled to 0.01). -/
def default_risk_limits (now : ℕ) : RiskLimits :=
  { max_position_size_usd := 10000
    max_order_size_usd := 5000
    max_daily_volume_usd := 50000
    max_slippage_tolerance := 1 / 100
    min_order_size_usd := 10
    daily_volume_usd := 0
    daily_reset_time := now }

/-- Truncation toward zero, the semantics of `decimal.ROUND_DOWN`. -/
def truncToward0 (x : ℚ) : ℤ :=
  if 0 ≤ x then Int.floor x else Int.ceil x

/-- Embeds `OrderManager._format_quantity`: the raw quantity is
quantized with `Decimal.quantize(step_decimal, rounding=ROUND_DOWN)`.
`Decimal.quantize` rounds its operand to the decimal *exponent* of
`step_decimal`; the mantissa plays no role, which is why `stepMant` is
not consulted.  (The `decimal_places` computed from the step string in
the source is dead code.) -/
def format_quantity (stepMant stepExp : ℕ) (quantity : ℚ) : ℚ :=
  (truncToward0 (quantity * 10 ^ stepExp) : ℚ) / 10 ^ stepExp

/-- Round half to even, the semantics of the default Decimal rounding
`ROUND_HALF_EVEN` used by `quantize` in `_format_price`. -/
def roundHalfEven (x : ℚ) : ℤ :=
  let f := Int.floor x
  if x - f < 1 / 2 then f
  else if 1 / 2 < x - f then f + 1
  else if f % 2 = 0 then f else f + 1

/-- Embeds `OrderManager._format_price`: quantize to the tick
Decimal's exponent with the default rounding. -/
def format_price (tickMant tickExp : ℕ) (price : ℚ) : ℚ :=
  (roundHalfEven (price * 10 ^ tickExp) : ℚ) / 10 ^ tickExp

/-- Whether an order type is in the list of price-requiring types of
`_validate_order_request`. -/
def requiresPrice : OrderType → Bool
  | OrderType.LIMIT => true
  | OrderType.STOP_LOSS_LIMIT => true
  | OrderType.TAKE_PROFIT_LIMIT => true
  | _ => false

/-- Embeds `OrderManager._validate_order_request`: symbol known,
quantity positive, price present and positive for limit-style orders,
LOT_SIZE filter present, quantity within its min/max bounds.  Each
`raise ValueError` becomes an `Except.error`. -/
def validate_order_request (info : Option SymbolInfo) (req : OrderRequest) :
    Except String Unit :=
  match info with
  | none => Except.error ("Symbol not supported")
  | some si =>
      if req.quantity ≤ 0 then Except.error ("Quantity must be positive")
      else if requiresPrice req.order_type &&
          (match req.price with | none => true | some p => decide (p ≤ 0)) then
        Except.error ("Price required for limit-style orders")
      else
        match si.lot_size with
        | none => Except.error ("LOT_SIZE filter not found")
        | some ls =>
            if req.quantity < ls.minQty then Except.error ("Quantity below minimum")
            else if ls.maxQty < req.quantity then Except.error ("Quantity above maximum")
            else Except.ok ()

/-- The body of the min-notional block inside `_check_risk_limits`:
`_get_min_notional_filter` raises if the filter is absent, and the
check raises if the notional is below the filter value. -/
def min_notional_check (min_notional : Option ℚ) (order_notional : ℚ) :
    Except String Unit :=
  match min_notional with
  | none => Except.error ("MIN_NOTIONAL filter not found")
  | some m =>
      if order_notional < m then Except.error ("Order notional below exchange minimum")
      else Except.ok ()

/-- Embeds `OrderManager._check_risk_limits`.  The fresh market price
is the outcome of `self._get_current_price` (an `Except`, since the
fetch can raise).  The whole min-notional block sits inside
`try: ... except ValueError: pass`, so *both* of its `ValueError`
outcomes — filter missing and notional below the exchange minimum —
are swallowed; its result is discarded and the method returns
normally.  Returns the possibly daily-reset risk state together with
the check outcome. -/
def check_risk_limits (risk : RiskLimits) (min_notional : Option ℚ)
    (quantity : ℚ) (current_price : Except String ℚ) (now : ℕ) :
    RiskLimits × Except String Unit :=
  match current_price with
  | Except.error e => (risk, Except.error e)
  | Except.ok price =>
      let order_notional := quantity * price
      if order_notional < risk.min_order_size_usd then
        (risk, Except.error ("Order size below minimum"))
      else if risk.max_order_size_usd < order_notional then
        (risk, Except.error ("Order size exceeds maximum"))
      else
        let risk' := if 86400 < now - risk.daily_reset_time then
          { risk with daily_volume_usd := 0, daily_reset_time := now } else risk
        if risk'.max_daily_volume_usd < risk'.daily_volume_usd + order_notional then
          (risk', Except.error ("Daily volume limit would be exceeded"))
        else
          let _ := min_notional_check min_notional order_notional
          (risk', Except.ok ())

/-- The response of the client's order call, reduced to the fields
`place_order` reads. -/
structure ClientOrderResponse where
  orderId : Option ℤ
  clientOrderId : Option String
  status : Option OrderStatus
  executedQty : ℚ
  price : Option ℚ
  deriving Repr, DecidableEq

/-- The collaborators `place_order` interacts with, each fallible call
modelled by its outcome: the symbol-info cache, the price fetch per
symbol, the order-placement client call (covering payload validation,
rate-limit denial, transport and API errors), the paper-trading flag
and the current time. -/
structure PlaceOrderEnv where
  symbol_info : String → Option SymbolInfo
  current_price : String → Except String ℚ
  client_response : Except String ClientOrderResponse
  is_paper : Bool
  risk : RiskLimits
  now : ℕ

/-- Python truthiness of `request.price` (`if request.price:` is false
for both `None` and `0.0`). -/
def priceTruthy : Option ℚ → Bool
  | none => false
  | some p => decide (p ≠ 0)

/-- The `try` body of `OrderManager.place_order`: validation, risk
checks, quantity/price normalization, then the dry-run, paper (test
order) or real order branch; every `raise` along the way is an
`Except.error`.  Returns the order result together with the risk state
after the daily-volume update. -/
def place_order_body (env : PlaceOrderEnv) (req : OrderRequest) (dry_run : Bool) :
    Except String (OrderResult × RiskLimits) := do
  let _ ← validate_order_request (env.symbol_info req.symbol) req
  let si := ((env.symbol_info req.symbol).getD ⟨none, none, none⟩)
  let (risk', check) := check_risk_limits env.risk si.min_notional req.quantity
    (env.current_price req.symbol) env.now
  let _ ← check
  let ls := (si.lot_size.getD ⟨0, 0, 0, 0⟩)
  let formatted_quantity := format_quantity ls.stepMant ls.stepExp req.quantity
  let formatted_price ← (do
    if priceTruthy req.price then
      match si.price_filter with
      | none => Except.error ("PRICE_FILTER not found")
      | some pf => Except.ok (some (format_price pf.tickMant pf.tickExp ((req.price).getD 0)))
    else Except.ok none : Except String (Option ℚ))
  if dry_run then
    let fill_price ← (match formatted_price with
      | some p => Except.ok p
      | none => env.current_price req.symbol)
    return ({ success := true
              client_order_id := some ("DRY_RUN")
              status := some OrderStatus.FILLED
              filled_quantity := formatted_quantity
              filled_price := fill_price }, risk')
  else
    let resp ← env.client_response
    let result ← (do
      if env.is_paper then
        let fill_price ← (match formatted_price with
          | some p => Except.ok p
          | none => env.current_price req.symbol)
        return { success := true
                 client_order_id := req.client_order_id
                 status := some OrderStatus.FILLED
                 filled_quantity := formatted_quantity
                 filled_price := fill_price }
      else
        return { success := true
                 order_id := some (toString (resp.orderId.getD 0))
                 client_order_id := resp.clientOrderId
                 status := some ((resp.status).getD OrderStatus.NEW)
                 filled_quantity := resp.executedQty
                 filled_price := if priceTruthy resp.price then (resp.price).getD 0 else 0 }
      : Except String OrderResult)
    let order_notional := result.filled_quantity * result.filled_price
    let risk'' := if 0 < result.filled_quantity then
      { risk' with daily_volume_usd := risk'.daily_volume_usd + order_notional } else risk'
    return (result, risk'')

/-- Embeds `OrderManager.place_order`: the `try` body above, with the
final `except Exception` clause converting any raised error into
`OrderResult(success=False, error_message=str(e))`. -/
def place_order (env : PlaceOrderEnv) (req : OrderRequest) (dry_run : Bool) :
    OrderResult :=
  match place_order_body env req dry_run with
  | Except.ok (result, _) => result
  | Except.error e => { success := false, error_message := some e }

/-- Embeds `OrderManager.buy_market`. -/
def buy_market (env : PlaceOrderEnv) (symbol : String) (quantity : ℚ)
    (client_order_id : Option String) : OrderResult :=
  place_order env
    { symbol := symbol, side := OrderSide.BUY, order_type := OrderType.MARKET
      quantity := quantity, price := none, time_in_force := "GTC"
      client_order_id := client_order_id } false

/-- Embeds `OrderManager.sell_market`. -/
def sell_market (env : PlaceOrderEnv) (symbol : String) (quantity : ℚ)
    (client_order_id : Option String) : OrderResult :=
  place_order env
    { symbol := symbol, side := OrderSide.SELL, order_type := OrderType.MARKET
      quantity := quantity, price := none, time_in_force := "GTC"
      client_order_id := client_order_id } false

/-- Embeds `OrderManager.buy_limit`. -/
def buy_limit (env : PlaceOrderEnv) (symbol : String) (quantity price : ℚ)
    (client_order_id : Option String) : OrderResult :=
  place_order env
    { symbol := symbol, side := OrderSide.BUY, order_type := OrderType.LIMIT
      quantity := quantity, price := some price, time_in_force := "GTC"
      client_order_id := client_order_id } false

/-- Embeds `OrderManager.sell_limit`. -/
def sell_limit (env : PlaceOrderEnv) (symbol : String) (quantity price : ℚ)
    (client_order_id : Option String) : OrderResult :=
  place_order env
    { symbol := symbol, side := OrderSide.SELL, order_type := OrderType.LIMIT
      quantity := quantity, price := some price, time_in_force := "GTC"
      client_order_id := client_order_id } false

/-- Whether a rational is an integer multiple of a step value: the
quotient is an integer exactly when its reduced denominator is 1. -/
def isIntMultipleOf (x step : ℚ) : Bool :=
  decide ((x / step).den = 1)

/-! ### Shared lemmas about the rate limiter -/

theorem bucket_setBucket_self (st : RateLimitManager) (t : RateLimitType)
    (rl : RateLimit) : (st.setBucket t rl).bucket t = rl := by
  cases t <;> rfl

theorem bucket_clearBan (st : RateLimitManager) (t : RateLimitType) :
    ({ st with isBanned := false } : RateLimitManager).bucket t = st.bucket t := by
  cases t <;> rfl

theorem check_limits_fst_bucket (st : RateLimitManager) (now w : ℕ)
    (t t' : RateLimitType) : ((check_limits st now w t).1).bucket t' = st.bucket t' := by
  simp only [check_limits]
  split_ifs <;> simp [bucket_clearBan]

theorem check_limits_true_le (st : RateLimitManager) (now w : ℕ) (t : RateLimitType)
    (h : (check_limits st now w t).2 = true) :
    (st.bucket t).currentUsage + w ≤ (st.bucket t).limit := by
  simp only [check_limits] at h
  split_ifs at h with h1 h2 h3 h4 <;> simp_all [bucket_clearBan]

theorem acquire_once_spec (st : RateLimitManager) (now w : ℕ) (t : RateLimitType)
    (hwin : now < (st.bucket t).resetTime) :
    (((acquire_once st now w t).1).bucket t).resetTime = (st.bucket t).resetTime ∧
    (((acquire_once st now w t).1).bucket t).limit = (st.bucket t).limit ∧
    ((acquire_once st now w t).2 = true →
      (st.bucket t).currentUsage + w ≤ (st.bucket t).limit ∧
      (((acquire_once st now w t).1).bucket t).currentUsage
        = (st.bucket t).currentUsage + w) ∧
    ((acquire_once st now w t).2 = false →
      (((acquire_once st now w t).1).bucket t).currentUsage
        = (st.bucket t).currentUsage) := by
  unfold acquire_once
  rcases hc : check_limits st now w t with ⟨st', granted⟩
  have hbkt : st'.bucket t = st.bucket t := by
    have hfst := check_limits_fst_bucket st now w t t
    rw [hc] at hfst
    exact hfst
  cases granted with
  | true =>
      have hle : (st.bucket t).currentUsage + w ≤ (st.bucket t).limit := by
        apply check_limits_true_le st now w t
        rw [hc]
      have hadd : (st'.bucket t).add_usage w now
          = { st.bucket t with
                currentUsage := (st.bucket t).currentUsage + w } := by
        rw [hbkt]
        unfold RateLimit.add_usage
        rw [if_neg (by omega)]
      refine ⟨?_, ?_, fun _ => ⟨hle, ?_⟩, fun hfalse => by simp at hfalse⟩
      · show (((st'.setBucket t ((st'.bucket t).add_usage w now))).bucket t).resetTime = _
        rw [bucket_setBucket_self, hadd]
      · show (((st'.setBucket t ((st'.bucket t).add_usage w now))).bucket t).limit = _
        rw [bucket_setBucket_self, hadd]
      · show (((st'.setBucket t ((st'.bucket t).add_usage w now))).bucket t).currentUsage = _
        rw [bucket_setBucket_self, hadd]
  | false =>
      refine ⟨?_, ?_, fun htrue => by simp at htrue, fun _ => ?_⟩ <;> simp [hbkt]

theorem acquire_seq_sum_bound :
    ∀ (calls : List (ℕ × ℕ)) (st : RateLimitManager) (t : RateLimitType),
      (∀ c ∈ calls, c.2 < (st.bucket t).resetTime) →
      (st.bucket t).currentUsage + ((acquire_seq t st calls).2).sum
        ≤ max (st.bucket t).currentUsage (st.bucket t).limit := by
  intro calls
  induction calls with
  | nil =>
      intro st t _
      simp [acquire_seq]
  | cons c rest ih =>
      intro st t hwin
      rcases c with ⟨w, now⟩
      have hnow : now < (st.bucket t).resetTime := hwin (w, now) (List.mem_cons_self _ _)
      obtain ⟨hreset, hlimit, hgrant, hdeny⟩ := acquire_once_spec st now w t hnow
      rcases hAO : acquire_once st now w t with ⟨st', granted⟩
      rw [hAO] at hreset hlimit hgrant hdeny
      have hwin' : ∀ c ∈ rest, c.2 < (st'.bucket t).resetTime := by
        intro c hc
        rw [hreset]
        exact hwin c (List.mem_cons_of_mem _ hc)
      have hrec := ih st' t hwin'
      simp only [acquire_seq, hAO]
      cases granted with
      | true =>
          obtain ⟨hle, husage⟩ := hgrant rfl
          rw [husage, hlimit] at hrec
          have hmax : max ((st.bucket t).currentUsage + w) (st.bucket t).limit
              = (st.bucket t).limit := Nat.max_eq_right hle
          rw [hmax] at hrec
          simp only [if_pos, List.sum_cons]
          calc (st.bucket t).currentUsage + (w + ((acquire_seq t st' rest).2).sum)
              = (st.bucket t).currentUsage + w + ((acquire_seq t st' rest).2).sum := by omega
            _ ≤ (st.bucket t).limit := hrec
            _ ≤ max (st.bucket t).currentUsage (st.bucket t).limit := Nat.le_max_right _ _
      | false =>
          have husage := hdeny rfl
          rw [husage, hlimit] at hrec
          simpa using hrec

/-! ### C1 -/

/-- C1: for every sequence of `acquire` calls on one manager that all
fall within a single window of a quota type (every call time lies
before the bucket's window-reset timestamp, so no reset intervenes),
with the window starting at zero usage and no header update in between,
the sum of the weights of the granted calls never exceeds that quota
type's configured limit (1200 request-weight per minute, 6000 raw
requests per minute, 50 orders per 10 seconds, as set up in
`initRateLimitManager`). -/
theorem acquire_window_granted_sum_le_limit (t : RateLimitType)
    (st : RateLimitManager) (calls : List (ℕ × ℕ))
    (husage : (st.bucket t).currentUsage = 0)
    (hlimit : (st.bucket t).limit = (initRateLimitManager.bucket t).limit)
    (hwindow : ∀ c ∈ calls, c.2 < (st.bucket t).resetTime) :
    ((acquire_seq t st calls).2).sum ≤ (initRateLimitManager.bucket t).limit := by
  have hbound := acquire_seq_sum_bound calls st t hwindow
  rw [husage, hlimit] at hbound
  simpa using hbound

/-- Witness for C1: three request-weight calls of weights 700, 600 and
500 at times 1, 2 and 3 inside a window that resets at time 60; the
calls of weight 700 and 500 are granted, the 600 one is denied, and the
granted sum 1200 stays within the limit of 1200. -/
theorem acquire_window_granted_sum_le_limit_witness :
    (({ initRateLimitManager with
          requestWeight := ⟨1200, 60, 0, 60⟩ } : RateLimitManager).bucket
        RateLimitType.REQUEST_WEIGHT).currentUsage = 0 ∧
    (({ initRateLimitManager with
          requestWeight := ⟨1200, 60, 0, 60⟩ } : RateLimitManager).bucket
        RateLimitType.REQUEST_WEIGHT).limit
      = (initRateLimitManager.bucket RateLimitType.REQUEST_WEIGHT).limit ∧
    (∀ c ∈ ([(700, 1), (600, 2), (500, 3)] : List (ℕ × ℕ)),
      c.2 < (({ initRateLimitManager with
            requestWeight := ⟨1200, 60, 0, 60⟩ } : RateLimitManager).bucket
          RateLimitType.REQUEST_WEIGHT).resetTime) ∧
    ((acquire_seq RateLimitType.REQUEST_WEIGHT
        { initRateLimitManager with requestWeight := ⟨1200, 60, 0, 60⟩ }
        [(700, 1), (600, 2), (500, 3)]).2).sum
      ≤ (initRateLimitManager.bucket RateLimitType.REQUEST_WEIGHT).limit :=
  ⟨rfl, rfl, by decide,
    acquire_window_granted_sum_le_limit RateLimitType.REQUEST_WEIGHT
      { initRateLimitManager with requestWeight := ⟨1200, 60, 0, 60⟩ }
      [(700, 1), (600, 2), (500, 3)] rfl rfl (by decide)⟩

/-! ### C2 -/

theorem acquire_banned_aux :
    ∀ (fuel : ℕ) (st : RateLimitManager) (w : ℕ) (t : RateLimitType)
      (timeout start attempts now : ℕ),
      start + timeout - now ≤ fuel → st.isBanned = true →
      start + timeout ≤ st.banUntil → start ≤ now →
      ∃ fin, acquire st w t timeout start attempts now = (st, false, fin) ∧
        start + timeout ≤ fin := by
  intro fuel
  induction fuel with
  | zero =>
      intro st w t timeout start attempts now hfuel hb hban hstart
      refine ⟨now, ?_, by omega⟩
      unfold acquire
      rw [dif_neg (by omega)]
  | succ k ih =>
      intro st w t timeout start attempts now hfuel hb hban hstart
      by_cases hguard : now - start < timeout
      · have hlt : now < st.banUntil := by omega
        have hco : check_limits st now w t = (st, false) := by
          unfold check_limits
          rw [if_pos ⟨hb, hlt⟩]
        have hao : acquire_once st now w t = (st, false) := by
          unfold acquire_once
          rw [hco]
        have hd := backoffDelay_pos attempts
        obtain ⟨fin, heq, hfin⟩ := ih st w t timeout start (attempts + 1)
          (now + backoffDelay attempts) (by omega) hb hban (by omega)
        refine ⟨fin, ?_, hfin⟩
        unfold acquire
        rw [dif_pos hguard, hao]
        exact heq
      · refine ⟨now, ?_, by omega⟩
        unfold acquire
        rw [dif_neg hguard]

theorem acquire_after_ban_grants (st : RateLimitManager) (w : ℕ)
    (t : RateLimitType) (timeout start attempts now : ℕ)
    (hban : st.banUntil ≤ now) (hguard : now - start < timeout)
    (hle : (st.bucket t).currentUsage + w ≤ (st.bucket t).limit) :
    (acquire st w t timeout start attempts now).2.1 = true ∧
    (acquire st w t timeout start attempts now).2.2 = now := by
  have hcheck : (check_limits st now w t).2 = true := by
    simp only [check_limits]
    rw [if_neg (by intro hcon; omega)]
    split_ifs with h2 h3 <;> first
      | rfl
      | (exfalso; rw [bucket_clearBan] at h3; omega)
      | (exfalso; omega)
  have hg : (acquire_once st now w t).2 = true := by
    unfold acquire_once
    rcases hcq : check_limits st now w t with ⟨s2, g⟩
    rw [hcq] at hcheck
    cases g
    · simp at hcheck
    · rfl
  unfold acquire
  rw [dif_pos hguard]
  rcases hao : acquire_once st now w t with ⟨st', granted⟩
  rw [hao] at hg
  cases granted
  · simp at hg
  · exact ⟨rfl, rfl⟩

/-- C2 (amended): `handle_rate_limit_error` on HTTP 418 enters the
banned state for a *fixed* 3600 seconds, whatever the response headers
say; while the ban covers a call's whole timeout window, `acquire`
returns not-granted only after its full timeout has elapsed (polling
with backoff, not failing immediately), leaving the state unchanged;
and once the ban deadline has passed, `acquire` grants again at its
first poll whenever the bucket has headroom. -/
theorem ban_418_fixed_duration_acquire_times_out :
    (∀ (st : RateLimitManager) (retry_after : Option ℕ) (now : ℕ),
      handle_rate_limit_error st 418 retry_after now
        = ({ st with isBanned := true, banUntil := now + 3600 }, 3600)) ∧
    (∀ (st : RateLimitManager) (w : ℕ) (t : RateLimitType)
        (timeout start attempts now : ℕ),
      st.isBanned = true → start + timeout ≤ st.banUntil → start ≤ now →
      ∃ fin, acquire st w t timeout start attempts now = (st, false, fin) ∧
        start + timeout ≤ fin) ∧
    (∀ (st : RateLimitManager) (w : ℕ) (t : RateLimitType)
        (timeout start attempts now : ℕ),
      st.banUntil ≤ now → now - start < timeout →
      (st.bucket t).currentUsage + w ≤ (st.bucket t).limit →
      (acquire st w t timeout start attempts now).2.1 = true ∧
      (acquire st w t timeout start attempts now).2.2 = now) := by
  refine ⟨?_, ?_, ?_⟩
  · intro st retry_after now
    rfl
  · intro st w t timeout start attempts now hb hban hstart
    exact acquire_banned_aux (start + timeout - now) st w t timeout start attempts now
      (le_refl _) hb hban hstart
  · intro st w t timeout start attempts now hban hguard hle
    exact acquire_after_ban_grants st w t timeout start attempts now hban hguard hle

/-- Counterexample for C2 as stated: after `handle_rate_limit_error`
with status 418 and a server retry-after of 60 at time 0, the ban
deadline is 3600, not the server-specified 60; and an `acquire` call
with timeout 30 during the ban does not fail immediately — it returns
at time 32, having slept through its whole timeout with backoff. -/
theorem ban_418_counterexample :
    (handle_rate_limit_error initRateLimitManager 418 (some 60) 0).1.banUntil ≠ 60 ∧
    (acquire (handle_rate_limit_error initRateLimitManager 418 (some 60) 0).1 1
        RateLimitType.REQUEST_WEIGHT 30 0 0 0).2.2 = 32 ∧
    ¬ (acquire (handle_rate_limit_error initRateLimitManager 418 (some 60) 0).1 1
        RateLimitType.REQUEST_WEIGHT 30 0 0 0).2.2 = 0 := by
  refine ⟨by decide, ?_, ?_⟩
  · simp [acquire, acquire_once, check_limits, handle_rate_limit_error,
      initRateLimitManager, backoffDelay]
  · have h32 : (acquire (handle_rate_limit_error initRateLimitManager 418 (some 60) 0).1 1
        RateLimitType.REQUEST_WEIGHT 30 0 0 0).2.2 = 32 := by
      simp [acquire, acquire_once, check_limits, handle_rate_limit_error,
        initRateLimitManager, backoffDelay]
    rw [h32]
    decide

/-- Witness for C2's theorem: with a ban until time 100 covering the
whole call, an `acquire` with timeout 30 started at time 0 returns
not-granted no earlier than time 30; and with the ban expired at time
0, a call is granted at its first poll. -/
theorem ban_418_fixed_duration_witness :
    ({ initRateLimitManager with isBanned := true, banUntil := 100 }
        : RateLimitManager).isBanned = true ∧
    (∃ fin, acquire { initRateLimitManager with isBanned := true, banUntil := 100 } 1
        RateLimitType.REQUEST_WEIGHT 30 0 0 0
      = ({ initRateLimitManager with isBanned := true, banUntil := 100 }, false, fin) ∧
      0 + 30 ≤ fin) ∧
    ((acquire initRateLimitManager 1 RateLimitType.REQUEST_WEIGHT 30 0 0 5).2.1 = true ∧
      (acquire initRateLimitManager 1 RateLimitType.REQUEST_WEIGHT 30 0 0 5).2.2 = 5) :=
  ⟨rfl,
    ban_418_fixed_duration_acquire_times_out.2.1
      { initRateLimitManager with isBanned := true, banUntil := 100 } 1
      RateLimitType.REQUEST_WEIGHT 30 0 0 0 rfl (by decide) (by decide),
    ban_418_fixed_duration_acquire_times_out.2.2 initRateLimitManager 1
      RateLimitType.REQUEST_WEIGHT 30 0 0 5 (by decide) (by decide) (by decide)⟩

/-! ### C6 -/

/-- C6 (code bug exhibited): with the request-weight bucket full
(usage 1200 of 1200) and its window set to reset at time 5, an
`acquire` of weight 1 with timeout 30 started at time 0 polls at times
0, 1, 3, 7, 12, 17, 22, 27 and returns not-granted at time 32 with the
bucket untouched — even though the window reset (time 5) passes well
before the timeout, after which `RateLimit.is_exceeded` (the reset
logic the check path never calls) would report free capacity, as the
third conjunct shows at time 7. -/
theorem acquire_ignores_window_reset :
    acquire { initRateLimitManager with requestWeight := ⟨1200, 60, 1200, 5⟩ } 1
        RateLimitType.REQUEST_WEIGHT 30 0 0 0
      = ({ initRateLimitManager with requestWeight := ⟨1200, 60, 1200, 5⟩ },
          false, 32) ∧
    5 < 30 ∧
    (RateLimit.is_exceeded ⟨1200, 60, 1200, 5⟩ 7).2 = false := by
  refine ⟨?_, by decide, by decide⟩
  simp [acquire, acquire_once, check_limits, initRateLimitManager, backoffDelay,
    RateLimitManager.bucket, RateLimitManager.setBucket, RateLimit.add_usage]

/-! ### C8 -/

theorem reconnect_loop_made_le :
    ∀ (k : ℕ) (outcome : ℕ → Bool) (maxA made attempts : ℕ),
      maxA - attempts ≤ k →
      (reconnect_loop outcome maxA made attempts).1 ≤ made + (maxA - attempts) := by
  intro k
  induction k with
  | zero =>
      intro outcome maxA made attempts hk
      unfold reconnect_loop
      rw [if_neg (by omega)]
      simp
  | succ k ih =>
      intro outcome maxA made attempts hk
      unfold reconnect_loop
      by_cases hlt : attempts < maxA
      · rw [if_pos hlt]
        cases houtcome : outcome attempts
        · have hrec := ih outcome maxA (made + 1) (attempts + 1) (by omega)
          simp only [houtcome, Bool.false_eq_true, if_false]
          omega
        · simp only [houtcome, if_true]
          show made + 1 ≤ made + (maxA - attempts)
          omega
      · rw [if_neg hlt]
        simp

/-- C8: the reconnection loop of the WebSocket manager makes at most
`max_reconnect_attempts` (5) reconnection attempts in a run started
from a fresh counter, whatever the attempts' outcomes; a loop entered
with the counter already at the maximum makes no attempt at all and
ends disconnected (the terminal, non-retrying state); and a run in
which every attempt fails makes exactly 5 attempts and ends with the
counter at 5, disconnected. -/
theorem reconnect_loop_bounded :
    (∀ (outcome : ℕ → Bool),
      (reconnect_loop outcome max_reconnect_attempts 0 0).1 ≤ max_reconnect_attempts) ∧
    (∀ (outcome : ℕ → Bool) (made : ℕ),
      reconnect_loop outcome max_reconnect_attempts made max_reconnect_attempts
        = (made, max_reconnect_attempts, false)) ∧
    reconnect_loop (fun _ => false) max_reconnect_attempts 0 0 = (5, 5, false) := by
  refine ⟨?_, ?_, ?_⟩
  · intro outcome
    have h := reconnect_loop_made_le max_reconnect_attempts outcome
      max_reconnect_attempts 0 0 (by omega)
    omega
  · intro outcome made
    unfold reconnect_loop
    rw [if_neg (by omega)]
  · simp [reconnect_loop, max_reconnect_attempts]

/-! ### C3 -/

/-- C3 (code bug exhibited): with the default risk limits, a symbol
whose MIN_NOTIONAL filter is 100, quantity 0.001 and market price
50000, the order notional is 50 — below the exchange minimum — yet
`_check_risk_limits` returns normally, because the whole min-notional
block (including its violation `raise`) sits inside
`except ValueError: pass`; `place_order` then proceeds all the way to a
successful placement, i.e. the order-placement network call is made. -/
theorem min_notional_violation_swallowed :
    (check_risk_limits (default_risk_limits 0) (some 100) (1 / 1000)
        (Except.ok 50000) 0).2 = Except.ok () ∧
    min_notional_check (some 100) ((1 / 1000) * 50000)
      = Except.error ("Order notional below exchange minimum") ∧
    ((1 / 1000 : ℚ) * 50000 < 100) ∧
    (place_order
        { symbol_info := fun _ =>
            some { lot_size := some ⟨0, 1000000, 1, 5⟩, price_filter := none,
                   min_notional := some 100 }
          current_price := fun _ => Except.ok 50000
          client_response :=
            Except.ok { orderId := some 123, clientOrderId := none,
                        status := some OrderStatus.NEW, executedQty := 0, price := none }
          is_paper := false
          risk := default_risk_limits 0
          now := 0 }
        { symbol := "BTCUSDT", side := OrderSide.BUY, order_type := OrderType.MARKET
          quantity := 1 / 1000, price := none, time_in_force := "GTC"
          client_order_id := none } false).success = true := by
  refine ⟨?_, ?_, by norm_num, ?_⟩
  · norm_num [check_risk_limits, default_risk_limits]
  · norm_num [min_notional_check]
  · norm_num [place_order, place_order_body, validate_order_request,
      check_risk_limits, min_notional_check, default_risk_limits, requiresPrice,
      priceTruthy, format_quantity, truncToward0, Except.bind, bind, pure,
      Except.pure]

/-! ### C4 -/

/-- Counterexample for C4 as stated: a LOT_SIZE step size published as
`1.00000000` reaches `_format_quantity` as `Decimal(1.0)`, i.e.
mantissa 10 with one decimal place; quantizing raw quantity 0.5 with
`ROUND_DOWN` then yields 0.5 unchanged, which is not an integer
multiple of the step value 1 (the nearest multiple rounding down would
be 0): the normalization does not round down to a multiple of the step
size in general. -/
theorem format_quantity_not_step_multiple :
    format_quantity 10 1 (1 / 2) = 1 / 2 ∧
    isIntMultipleOf (1 / 2) ((10 : ℚ) / 10 ^ 1) = false := by
  constructor
  · norm_num [format_quantity, truncToward0]
  · norm_num [isIntMultipleOf]

/-- C4 (amended): for nonnegative raw quantities, `_format_quantity`
truncates to the *decimal exponent* of the step size: the result never
exceeds the raw quantity (never rounds up) and is always an integer
multiple of `10 ^ (-stepExp)` — hence of the step size itself exactly
when the step size is a power of ten, as in the claim's example, where
step `0.00001` (mantissa 1, exponent 5) and raw `0.123456789` yield
`0.12345`. -/
theorem format_quantity_rounds_down_to_exponent :
    (∀ (stepMant stepExp : ℕ) (q : ℚ), 0 ≤ q →
      format_quantity stepMant stepExp q ≤ q ∧
      isIntMultipleOf (format_quantity stepMant stepExp q) (1 / 10 ^ stepExp) = true) ∧
    format_quantity 1 5 (123456789 / 10 ^ 9) = 12345 / 10 ^ 5 := by
  constructor
  · intro stepMant stepExp q hq
    have hpow : (0 : ℚ) < 10 ^ stepExp := by positivity
    have hfloor : truncToward0 (q * 10 ^ stepExp) = Int.floor (q * 10 ^ stepExp) := by
      unfold truncToward0
      rw [if_pos (by positivity)]
    constructor
    · unfold format_quantity
      rw [hfloor]
      rw [div_le_iff₀ hpow]
      exact Int.floor_le _
    · unfold format_quantity isIntMultipleOf
      rw [hfloor]
      have hne : (10 : ℚ) ^ stepExp ≠ 0 := ne_of_gt hpow
      have hdiv : ((Int.floor (q * 10 ^ stepExp) : ℚ) / 10 ^ stepExp) / (1 / 10 ^ stepExp)
          = (Int.floor (q * 10 ^ stepExp) : ℚ) := by
        field_simp
      rw [hdiv]
      simp [Rat.den_intCast]
  · norm_num [format_quantity, truncToward0]

/-- Witness for C4's theorem: at step mantissa 10, exponent 1 and raw
quantity 1/2 the hypothesis 0 ≤ 1/2 holds and the rounded quantity
stays below the raw one while being a multiple of 1/10. -/
theorem format_quantity_rounds_down_witness :
    (0 : ℚ) ≤ 1 / 2 ∧
    (format_quantity 10 1 (1 / 2) ≤ 1 / 2 ∧
      isIntMultipleOf (format_quantity 10 1 (1 / 2)) (1 / 10 ^ 1) = true) :=
  ⟨by norm_num,
    format_quantity_rounds_down_to_exponent.1 10 1 (1 / 2) (by norm_num)⟩

/-! ### C5 -/

/-- C5: whatever exception any stage of `place_order` raises —
validation, risk check, price fetch, price-filter lookup or the
client's order call — the `except Exception` clause turns it into
`OrderResult(success=False, error_message=str(e))`; no exception
escapes (the embedded `place_order` is a total function).  The market
and limit convenience wrappers all route through `place_order`, so
they inherit this. -/
theorem place_order_returns_failure_result :
    (∀ (env : PlaceOrderEnv) (req : OrderRequest) (dry_run : Bool) (e : String),
      place_order_body env req dry_run = Except.error e →
      place_order env req dry_run
        = { success := false, error_message := some e }) ∧
    (∀ (env : PlaceOrderEnv) (symbol : String) (quantity : ℚ)
        (cid : Option String),
      buy_market env symbol quantity cid
        = place_order env
            { symbol := symbol, side := OrderSide.BUY, order_type := OrderType.MARKET
              quantity := quantity, price := none, time_in_force := "GTC"
              client_order_id := cid } false ∧
      sell_market env symbol quantity cid
        = place_order env
            { symbol := symbol, side := OrderSide.SELL, order_type := OrderType.MARKET
              quantity := quantity, price := none, time_in_force := "GTC"
              client_order_id := cid } false) ∧
    (∀ (env : PlaceOrderEnv) (symbol : String) (quantity price : ℚ)
        (cid : Option String),
      buy_limit env symbol quantity price cid
        = place_order env
            { symbol := symbol, side := OrderSide.BUY, order_type := OrderType.LIMIT
              quantity := quantity, price := some price, time_in_force := "GTC"
              client_order_id := cid } false ∧
      sell_limit env symbol quantity price cid
        = place_order env
            { symbol := symbol, side := OrderSide.SELL, order_type := OrderType.LIMIT
              quantity := quantity, price := some price, time_in_force := "GTC"
              client_order_id := cid } false) := by
  refine ⟨?_, fun env s q cid => ⟨rfl, rfl⟩, fun env s q p cid => ⟨rfl, rfl⟩⟩
  intro env req dry_run e h
  unfold place_order
  rw [h]

/-- Witness for C5: an environment whose symbol cache knows no symbol
makes validation raise; `place_order` returns the uniform failure
result carrying that message. -/
theorem place_order_returns_failure_result_witness :
    place_order_body
        { symbol_info := fun _ => none
          current_price := fun _ => Except.error ("offline")
          client_response := Except.error ("offline")
          is_paper := false
          risk := default_risk_limits 0
          now := 0 }
        { symbol := "BTCUSDT", side := OrderSide.BUY, order_type := OrderType.MARKET
          quantity := 1, price := none, time_in_force := "GTC"
          client_order_id := none } false
      = Except.error ("Symbol not supported") ∧
    place_order
        { symbol_info := fun _ => none
          current_price := fun _ => Except.error ("offline")
          client_response := Except.error ("offline")
          is_paper := false
          risk := default_risk_limits 0
          now := 0 }
        { symbol := "BTCUSDT", side := OrderSide.BUY, order_type := OrderType.MARKET
          quantity := 1, price := none, time_in_force := "GTC"
          client_order_id := none } false
      = { success := false, error_message := some ("Symbol not supported") } :=
  ⟨rfl,
    place_order_returns_failure_result.1
      { symbol_info := fun _ => none
        current_price := fun _ => Except.error ("offline")
        client_response := Except.error ("offline")
        is_paper := false
        risk := default_risk_limits 0
        now := 0 }
      { symbol := "BTCUSDT", side := OrderSide.BUY, order_type := OrderType.MARKET
        quantity := 1, price := none, time_in_force := "GTC"
        client_order_id := none } false ("Symbol not supported") rfl⟩

/-! ### C7 -/

theorem hexEncodeChars_length :
    ∀ bs : List ℕ, (hexEncodeChars bs).length = 2 * bs.length := by
  intro bs
  induction bs with
  | nil => rfl
  | cons b bs ih =>
      simp only [hexEncodeChars, List.length_cons, ih]
      omega

theorem hexDigitChar_lower (n : ℕ) (h : n < 16) :
    isLowerHexDigit (hexDigitChar n) = true := by
  interval_cases n <;> decide

theorem hexEncodeChars_lower :
    ∀ bs : List ℕ, (∀ b ∈ bs, b < 256) →
      ∀ c ∈ hexEncodeChars bs, isLowerHexDigit c = true := by
  intro bs
  induction bs with
  | nil => intro _ c hc; cases hc
  | cons b bs ih =>
      intro hb c hc
      have hblt : b < 256 := hb b (List.mem_cons_self _ _)
      simp only [hexEncodeChars, List.mem_cons] at hc
      rcases hc with hc | hc | hc
      · rw [hc]; exact hexDigitChar_lower _ (by omega)
      · rw [hc]; exact hexDigitChar_lower _ (by omega)
      · exact ih (fun x hx => hb x (List.mem_cons_of_mem _ hx)) c hc

theorem b64EncodeChars_length :
    ∀ bs : List ℕ, (b64EncodeChars bs).length = 4 * ((bs.length + 2) / 3) := by
  intro bs
  induction bs using b64EncodeChars.induct with
  | case1 => rfl
  | case2 b => simp [b64EncodeChars]
  | case3 b c => simp [b64EncodeChars]
  | case4 b c d rest ih =>
      simp only [b64EncodeChars, List.length_cons, ih]
      omega

theorem b64CharVal_b64Char (n : ℕ) (h : n < 64) :
    b64CharVal (b64Char n) = some n := by
  interval_cases n <;> decide

theorem b64Char_ne_pad (n : ℕ) (h : n < 64) : ¬ b64Char n = Char.ofNat 61 := by
  interval_cases n <;> decide

theorem b64_roundtrip :
    ∀ bs : List ℕ, (∀ b ∈ bs, b < 256) →
      b64DecodeChars (b64EncodeChars bs) = some bs := by
  intro bs
  induction bs using b64EncodeChars.induct with
  | case1 => intro _; rfl
  | case2 b =>
      intro hb
      have h1 : b < 256 := hb b (by simp)
      have hva := b64CharVal_b64Char (b / 4) (by omega)
      have hvb := b64CharVal_b64Char (b % 4 * 16) (by omega)
      simp [b64EncodeChars, b64DecodeChars, hva, hvb]
      omega
  | case3 b c =>
      intro hb
      have h1 : b < 256 := hb b (by simp)
      have h2 : c < 256 := hb c (by simp)
      have hva := b64CharVal_b64Char (b / 4) (by omega)
      have hvb := b64CharVal_b64Char (b % 4 * 16 + c / 16) (by omega)
      have hvc := b64CharVal_b64Char (c % 16 * 4) (by omega)
      have hnp : ¬ b64Char (c % 16 * 4) = Char.ofNat 61 :=
        b64Char_ne_pad (c % 16 * 4) (by omega)
      simp [b64EncodeChars, b64DecodeChars, hva, hvb, hvc, hnp]
      omega
  | case4 b c d rest ih =>
      intro hb
      have h1 : b < 256 := hb b (by simp)
      have h2 : c < 256 := hb c (by simp)
      have h3 : d < 256 := hb d (by simp)
      have hrest : ∀ x ∈ rest, x < 256 := by
        intro x hx
        exact hb x (by simp [hx])
      have hdec := ih hrest
      have hva := b64CharVal_b64Char (b / 4) (by omega)
      have hvb := b64CharVal_b64Char (b % 4 * 16 + c / 16) (by omega)
      have hvc := b64CharVal_b64Char (c % 16 * 4 + d / 64) (by omega)
      have hvd := b64CharVal_b64Char (d % 64) (by omega)
      cases hE : b64EncodeChars rest with
      | nil =>
          rw [hE] at hdec
          have hnil : rest = [] := by
            simpa [b64DecodeChars] using hdec.symm
          subst hnil
          have hnp1 : ¬ b64Char (c % 16 * 4 + d / 64) = Char.ofNat 61 :=
            b64Char_ne_pad (c % 16 * 4 + d / 64) (by omega)
          have hnp2 : ¬ b64Char (d % 64) = Char.ofNat 61 :=
            b64Char_ne_pad (d % 64) (by omega)
          simp [b64EncodeChars, b64DecodeChars, hva, hvb, hvc, hvd, hnp1, hnp2]
          omega
      | cons e E =>
          rw [hE] at hdec
          simp [b64EncodeChars, hE, b64DecodeChars, hva, hvb, hvc, hvd, hdec]
          omega

/-- C7: in shared-secret mode `generate_signature` hex-encodes the
32-byte MAC digest, giving a 64-character string of lowercase
hexadecimal digits; in Ed25519 mode it base64-encodes the 64-byte
signature, giving an 88-character base64 string that decodes back to
exactly the 64 signature bytes. -/
theorem generate_signature_formats :
    ∀ (digest signature_bytes : List ℕ),
      digest.length = 32 → (∀ b ∈ digest, b < 256) →
      signature_bytes.length = 64 → (∀ b ∈ signature_bytes, b < 256) →
      (generate_signature_hmac digest).length = 64 ∧
      (∀ c ∈ (generate_signature_hmac digest).toList, isLowerHexDigit c = true) ∧
      (generate_signature_ed25519 signature_bytes).length = 88 ∧
      b64DecodeChars (generate_signature_ed25519 signature_bytes).toList
        = some signature_bytes := by
  intro digest signature_bytes hdlen hdbytes hslen hsbytes
  refine ⟨?_, ?_, ?_, ?_⟩
  · show (hexEncodeChars digest).length = 64
    rw [hexEncodeChars_length, hdlen]
  · intro c hc
    exact hexEncodeChars_lower digest hdbytes c hc
  · show (b64EncodeChars signature_bytes).length = 88
    rw [b64EncodeChars_length, hslen]
  · show b64DecodeChars (b64EncodeChars signature_bytes) = some signature_bytes
    exact b64_roundtrip signature_bytes hsbytes

/-- Witness for C7: the all-zero 32-byte digest and all-zero 64-byte
signature satisfy the byte-size hypotheses, and the encoded signatures
have the stated formats. -/
theorem generate_signature_formats_witness :
    (List.replicate 32 0).length = 32 ∧
    (∀ b ∈ List.replicate 32 (0 : ℕ), b < 256) ∧
    (List.replicate 64 0).length = 64 ∧
    (∀ b ∈ List.replicate 64 (0 : ℕ), b < 256) ∧
    ((generate_signature_hmac (List.replicate 32 0)).length = 64 ∧
      (∀ c ∈ (generate_signature_hmac (List.replicate 32 0)).toList,
        isLowerHexDigit c = true) ∧
      (generate_signature_ed25519 (List.replicate 64 0)).length = 88 ∧
      b64DecodeChars (generate_signature_ed25519 (List.replicate 64 0)).toList
        = some (List.replicate 64 0)) :=
  ⟨by decide, by decide, by decide, by decide,
    generate_signature_formats (List.replicate 32 0) (List.replicate 64 0)
      (by decide) (by decide) (by decide) (by decide)⟩

/-! ### C9 -/

/-- Counterexample for C9 as stated: in the paper (simulation)
environment, reading account balances goes through the ordinary
`_request` pipeline — a fresh rate limiter grants the weight-10
acquisition for `/api/v3/account`, after which the HTTP network call
is issued; nothing in `get_account_balances`, `get_account_info` or
`_request` branches on the environment. -/
theorem paper_balances_contact_network :
    (acquire_once initRateLimitManager 0 10 RateLimitType.REQUEST_WEIGHT).2 = true ∧
    Effect.httpCall ("GET") ("/api/v3/account")
      ∈ get_account_balances_effects Environment.PAPER true ∧
    ¬ get_account_balances_effects Environment.PAPER true
        = [Effect.rateLimitAcquire 10 RateLimitType.REQUEST_WEIGHT] := by
  refine ⟨by decide, ?_, by decide⟩
  decide

/-- C9 (amended): in the paper environment `get_api_credentials`
synthesizes its credentials and reads no environment variable (it
succeeds even when none is set), but reading account balances is *not*
network-free: for every environment, paper included, a granted balance
read issues the HTTP request to the account endpoint. -/
theorem paper_credentials_synthesized_balances_still_network :
    (∀ vars : EnvVars,
      get_api_credentials Environment.PAPER vars
        = Except.ok
            { apiKey := "paper_key_for_testing_purposes_long_enough"
              apiSecret := some "paper_secret_for_testing_purposes_long_enough"
              privateKeyPath := none }) ∧
    get_api_credentials Environment.TESTNET ⟨none, none, none⟩
      = Except.error ("Missing BINANCE_API_KEY") ∧
    (∀ env : Environment,
      Effect.httpCall ("GET") ("/api/v3/account")
        ∈ get_account_balances_effects env true) := by
  refine ⟨fun vars => rfl, rfl, fun env => ?_⟩
  simp [get_account_balances_effects, request_effects]

/-! ### C10 -/

/-- Counterexample for C10 as stated: the open-orders and all-orders
listing endpoints do not contain the lowercase substring `order`
(theirs is capitalized), so `_request` charges them to the
request-weight bucket, not the order-count bucket the claim names for
them. -/
theorem open_orders_not_in_orders_bucket :
    limitTypeFor ("/api/v3/openOrders") = RateLimitType.REQUEST_WEIGHT ∧
    limitTypeFor ("/api/v3/allOrders") = RateLimitType.REQUEST_WEIGHT ∧
    ¬ limitTypeFor ("/api/v3/openOrders") = RateLimitType.ORDERS := by
  refine ⟨by decide, by decide, by decide⟩

/-- C10 (amended): `_request` charges an endpoint to the order-count
bucket exactly when its path contains the case-sensitive substring
`order`: order placement, test placement, lookup and cancellation all
use `/api/v3/order` or `/api/v3/order/test` and go to the order
bucket, while `/api/v3/openOrders`, `/api/v3/allOrders` and every
other endpoint (account, ticker, ...) go to the request-weight bucket;
every endpoint is charged to one of the two buckets, with the weight
from the endpoint table. -/
theorem order_substring_selects_bucket :
    limitTypeFor ("/api/v3/order") = RateLimitType.ORDERS ∧
    limitTypeFor ("/api/v3/order/test") = RateLimitType.ORDERS ∧
    limitTypeFor ("/api/v3/openOrders") = RateLimitType.REQUEST_WEIGHT ∧
    limitTypeFor ("/api/v3/allOrders") = RateLimitType.REQUEST_WEIGHT ∧
    limitTypeFor ("/api/v3/account") = RateLimitType.REQUEST_WEIGHT ∧
    limitTypeFor ("/api/v3/ticker/price") = RateLimitType.REQUEST_WEIGHT ∧
    (∀ endpoint : String,
      limitTypeFor endpoint = RateLimitType.ORDERS ∨
      limitTypeFor endpoint = RateLimitType.REQUEST_WEIGHT) ∧
    get_endpoint_weight ("/api/v3/order") none = 1 ∧
    get_endpoint_weight ("/api/v3/order/test") none = 1 ∧
    get_endpoint_weight ("/api/v3/openOrders") (some ⟨true, none⟩) = 3 ∧
    get_endpoint_weight ("/api/v3/allOrders") (some ⟨true, none⟩) = 10 ∧
    get_endpoint_weight ("/api/v3/account") none = 10 := by
  refine ⟨by decide, by decide, by decide, by decide, by decide, by decide,
    ?_, by decide, by decide, by decide, by decide, by decide⟩
  intro endpoint
  unfold limitTypeFor
  split_ifs <;> simp

end Binance
